import Mathlib

/-!
Verification of the CLIP image-preprocessing pipeline of this repository
(examples/models/llama3_2_vision/preprocess) and of the external tensor-segment
schema (exir/schema_data.py), as a shallow embedding in Lean 4.

Pixel values are modelled exactly as rationals; image sizes are naturals.
The resampling filter itself is an external collaborator (the configuration
only names a filter kind), so the pipelines are parametrised by an arbitrary
resample function.
-/

/-- A numeric image: channel count, height, width, and the pixel data as a
total function (channel, row, column) to a rational value. -/
structure ImageT where
  channels : ℕ
  height : ℕ
  width : ℕ
  data : ℕ → ℕ → ℕ → ℚ

/-- A resampling filter: given a source image and a target height and width,
produces the resized image.  The concrete filter (bilinear, with or without
antialias) is an external collaborator and is kept abstract. -/
def Resample : Type := ImageT → ℕ → ℕ → ImageT

/-- The preprocessing configuration, embedded from the
PreprocessConfig dataclass used by the test (examples/.../preprocess):
tile size, maximum number of tiles, the resize_to_max_canvas flag,
per-channel mean and std, the antialias flag, and an optional explicit
list of possible resolutions that overrides enumeration. -/
structure PreprocessConfig where
  tile_size : ℕ
  max_num_tiles : ℕ
  resize_to_max_canvas : Bool
  image_mean : List ℚ
  image_std : List ℚ
  antialias : Bool
  possible_resolutions : Option (List (ℕ × ℕ))

/-- Executable minimum on rationals (the Mathlib lattice operation does not
reduce in the kernel). -/
def qmin (a b : ℚ) : ℚ := if a ≤ b then a else b

/-- Executable maximum on rationals. -/
def qmax (a b : ℚ) : ℚ := if a ≤ b then b else a

/-- Executable quotient of two naturals as a rational. -/
def qdivNat (a b : ℕ) : ℚ := Rat.divInt a b

/-- Executable product of a natural and a rational. -/
def qmulNat (n : ℕ) (x : ℚ) : ℚ := Rat.divInt (n * x.num) x.den

/-- Executable round-half-up on rationals, as an integer floor division. -/
def qround (x : ℚ) : ℤ := (2 * x.num + x.den) / (2 * (x.den : ℤ))

/-- Modelled from the spec: scale factor used by canvas selection, the more
constraining of the two per-axis ratios, min(canvas.h / image.h,
canvas.w / image.w).  Division by zero follows the rational convention x / 0 = 0. -/
def scaleFor (imageSize canvas : ℕ × ℕ) : ℚ :=
  qmin (qdivNat canvas.1 imageSize.1) (qdivNat canvas.2 imageSize.2)

/-- Minimum of a list of rationals (0 on the empty list). -/
def listMinQ : List ℚ → ℚ
  | [] => 0
  | x :: xs => xs.foldl qmin x

/-- Maximum of a list of rationals (0 on the empty list). -/
def listMaxQ : List ℚ → ℚ
  | [] => 0
  | x :: xs => xs.foldl qmax x

/-- Keep the accumulator unless the new canvas has strictly smaller area. -/
def pickSmaller (acc c : ℕ × ℕ) : ℕ × ℕ :=
  if c.1 * c.2 < acc.1 * acc.2 then c else acc

/-- Among a list of candidate canvases, the first one of smallest area
(height times width); none on the empty list. -/
def selectSmallest : List (ℕ × ℕ) → Option (ℕ × ℕ)
  | [] => none
  | x :: xs => some (xs.foldl pickSmaller x)

/-- Modelled from the spec: find_supported_resolutions (torchtune, not part of
this sample).  For every pair (rows, cols) with rows, cols at least 1 and
rows * cols at most max_num_tiles, emit the canvas
(rows * tile_size, cols * tile_size). -/
def find_supported_resolutions (max_num_tiles tile_size : ℕ) : List (ℕ × ℕ) :=
  ((List.range max_num_tiles).map (· + 1)).flatMap (fun r =>
    ((List.range (max_num_tiles / r)).map (· + 1)).map (fun c =>
      (r * tile_size, c * tile_size)))

/-- Modelled from the spec: the scale selected by the CanvasSelector.  If some
candidate can contain the image without upscaling (scale at least 1), the
largest such scale when resize_to_max_canvas is set and the smallest
otherwise (the tightest fit that still avoids upscaling); if no candidate
can contain the image, the largest (closest to 1) downscaling scale. -/
def selectedScaleOf (imageSize : ℕ × ℕ) (possible : List (ℕ × ℕ))
    (resizeToMaxCanvas : Bool) : ℚ :=
  let upscaling := possible.filter (fun c => decide (1 ≤ scaleFor imageSize c))
  if upscaling.isEmpty then
    listMaxQ ((possible.filter (fun c => decide (scaleFor imageSize c < 1))).map
      (scaleFor imageSize))
  else if resizeToMaxCanvas then
    listMaxQ (upscaling.map (scaleFor imageSize))
  else
    listMinQ (upscaling.map (scaleFor imageSize))

/-- Modelled from the spec: get_canvas_best_fit (torchtune, not part of this
sample), realising the design intent of the CanvasSelector together with the
worked end-to-end scenarios: compute every candidate scale
min(canvas.h / h, canvas.w / w), pick the selected scale as above, and among
candidates achieving the selected scale take the one of smallest area. -/
def get_canvas_best_fit (imageSize : ℕ × ℕ) (possible : List (ℕ × ℕ))
    (resizeToMaxCanvas : Bool) : ℕ × ℕ :=
  let chosen := possible.filter (fun c =>
    decide (scaleFor imageSize c = selectedScaleOf imageSize possible resizeToMaxCanvas))
  (selectSmallest chosen).getD (0, 0)

/-- Modelled from the spec: get_inscribed_size (torchtune, not part of this
sample).  The largest size with the aspect ratio of imageSize fitting in the
canvas: scale by the more constraining axis, and when maxEdge is given cap
the scale further so the larger edge does not exceed maxEdge; both output
dimensions are rounded at the common scale and are at least 1. -/
def get_inscribed_size (imageSize : ℕ × ℕ) (canvas : ℕ × ℕ)
    (maxEdge : Option ℕ) : ℕ × ℕ :=
  let scale0 : ℚ := scaleFor imageSize canvas
  let scale : ℚ :=
    match maxEdge with
    | none => scale0
    | some m => qmin scale0 (qdivNat m (max imageSize.1 imageSize.2))
  (max 1 (qround (qmulNat imageSize.1 scale)).toNat,
   max 1 (qround (qmulNat imageSize.2 scale)).toNat)

/-- Modelled from the spec: the Resampler/Padder stage.  Resizes the image to
the inscribed size with the supplied resample filter, places it at the
top-left origin of a zero-filled canvas-sized buffer, and leaves the
bottom/right margin as zero padding.  Output shape is exactly
(channels, canvas.h, canvas.w). -/
def resize_and_pad (resample : Resample) (img : ImageT)
    (inscribed canvas : ℕ × ℕ) : ImageT :=
  ⟨img.channels, canvas.1, canvas.2, fun c y x =>
    if y < inscribed.1 ∧ x < inscribed.2 then
      (resample img inscribed.1 inscribed.2).data c y x
    else 0⟩

/-- Modelled from the spec: the Tiler stage (the tile-crop operation).
Partitions the padded canvas into rows = height / tile_size times
cols = width / tile_size non-overlapping square tiles in row-major order and
emits the grid-shape pair (rows, cols). -/
def tile_crop (padded : ImageT) (t : ℕ) : List ImageT × (ℕ × ℕ) :=
  let rows := padded.height / t
  let cols := padded.width / t
  (((List.range rows).flatMap fun r =>
      (List.range cols).map fun c =>
        (⟨padded.channels, t, t, fun ch y x =>
          padded.data ch (r * t + y) (c * t + x)⟩ : ImageT)),
   (rows, cols))

/-- Modelled from the spec: the Normalizer stage, the per-channel elementwise
transform (value - mean[c]) / std[c]. -/
def normalizeTile (mean std : List ℚ) (tl : ImageT) : ImageT :=
  ⟨tl.channels, tl.height, tl.width, fun c y x =>
    (tl.data c y x - mean.getD c 0) / std.getD c 1⟩

/-- The pixel stages shared by both pipelines, before normalization:
resize into the inscribed size, pad to the best-resolution canvas, and split
into tiles with the grid-shape pair. -/
def preprocessTiles (resample : Resample) (cfg : PreprocessConfig) (img : ImageT)
    (inscribed best : ℕ × ℕ) : List ImageT × (ℕ × ℕ) :=
  tile_crop (resize_and_pad resample img inscribed best) cfg.tile_size

/-- Modelled from the spec: the optimized, exportable pipeline (the
underscore-prefixed CLIPImageTransform core of torchtune, not part of this
sample).  Its entry point takes the image tensor together with the
precomputed inscribed size and best resolution; it performs only the pixel
work (resize, pad, tile, normalize) and no canvas enumeration, selection or
inscription. -/
def CLIPImageTransformCore (resample : Resample) (cfg : PreprocessConfig)
    (img : ImageT) (inscribed best : ℕ × ℕ) : List ImageT × (ℕ × ℕ) :=
  let tiles := preprocessTiles resample cfg img inscribed best
  (tiles.1.map (normalizeTile cfg.image_mean cfg.image_std), tiles.2)

/-- Embedded from the source (test_preprocess.py, prepare_inputs):
the resize limit passed to the inscribed-size computation is None when
resize_to_max_canvas is set and tile_size otherwise. -/
def maxSizeOf (cfg : PreprocessConfig) : Option ℕ :=
  if cfg.resize_to_max_canvas then none else some cfg.tile_size

/-- Embedded from the source (test_preprocess.py, prepare_inputs): the
pre-work for the eager and exported models.  Takes the already numeric image
(the PIL-to-tensor conversion is the identity on our numeric images),
computes the candidate resolutions (the explicit configuration list when
present, otherwise the enumeration), the best-fitting canvas, and the
inscribed size under the resize limit, and returns the triple
(image, inscribed_size, best_resolution). -/
def prepare_inputs (cfg : PreprocessConfig) (img : ImageT) :
    ImageT × (ℕ × ℕ) × (ℕ × ℕ) :=
  let possible := (cfg.possible_resolutions).getD
    (find_supported_resolutions cfg.max_num_tiles cfg.tile_size)
  let best := get_canvas_best_fit (img.height, img.width) possible
    cfg.resize_to_max_canvas
  let inscribed := get_inscribed_size (img.height, img.width) best (maxSizeOf cfg)
  (img, inscribed, best)

/-- Modelled from the spec: the reference pipeline CLIPImageTransform
(torchtune, not part of this sample).  Accepts a bare image, itself computes
the candidate resolutions, the best canvas and the inscribed size (with the
same resize limit rule), and then invokes the exportable core transform. -/
def CLIPImageTransform (resample : Resample) (cfg : PreprocessConfig)
    (img : ImageT) : List ImageT × (ℕ × ℕ) :=
  let possible := (cfg.possible_resolutions).getD
    (find_supported_resolutions cfg.max_num_tiles cfg.tile_size)
  let best := get_canvas_best_fit (img.height, img.width) possible
    cfg.resize_to_max_canvas
  let maxSize : Option ℕ :=
    if cfg.resize_to_max_canvas then none else some cfg.tile_size
  let inscribed := get_inscribed_size (img.height, img.width) best maxSize
  CLIPImageTransformCore resample cfg img inscribed best

/-- Decidable check that every pixel of an image lies in the interval
[0, 1]. -/
def inRange01 (img : ImageT) : Bool :=
  (List.range img.channels).all fun c =>
    (List.range img.height).all fun y =>
      (List.range img.width).all fun x =>
        decide (0 ≤ img.data c y x) && decide (img.data c y x ≤ 1)

/-- Modelled from the spec: the scalar dtype tag
(executorch.exir.scalar_type, not part of this sample), an enumeration
represented abstractly by its numeric code. -/
def ScalarType : Type := ℕ

/-- Embedded from the source (exir/schema_data.py): per-tensor metadata for
the external tensor-segment layout.  Entries of dim_order are bytes in the
source and are modelled as byte values. -/
structure TensorMetadata where
  fully_qualified_name : String
  scalar_type : ScalarType
  dim_sizes : List ℤ
  dim_order : List ℕ
  storage_offset : ℤ
  layout : ℤ
  offset : ℤ
  size : ℤ

/-- Embedded from the source (exir/schema_data.py): a tensor segment groups a
list of TensorMetadata entries under a segment index. -/
structure TensorSegment where
  segment_index : ℤ
  tensor_metadata : List TensorMetadata

/-- Embedded from the source (exir/schema_data.py). -/
structure DataSegment where
  offset : ℤ
  size : ℤ

/-- Embedded from the source (exir/schema_data.py). -/
structure Data where
  version : ℤ
  tensor_alignment : ℤ
  tensor_segments : List TensorSegment
  data_segments : List DataSegment

/-- Sample resample function: the identity filter. -/
def idResample : Resample := fun im _ _ => im

/-- Sample resample function: a constant zero filter of the requested shape. -/
def constResample : Resample := fun im h w => ⟨im.channels, h, w, fun _ _ _ => 0⟩

/-- Sample configuration with resize_to_max_canvas disabled. -/
def cfgFalse : PreprocessConfig := ⟨224, 4, false, [0, 0, 0], [1, 1, 1], false, none⟩

/-- Sample configuration with resize_to_max_canvas enabled. -/
def cfgTrue : PreprocessConfig := ⟨224, 4, true, [0, 0, 0], [1, 1, 1], false, none⟩

/-- Tiny sample configuration. -/
def cfgUnit : PreprocessConfig := ⟨1, 1, false, [0], [1], false, none⟩

/-- Tiny sample configuration agreeing with cfgUnit on tile_size, mean and
std but differing in every field consumed by canvas enumeration and
selection. -/
def cfgUnitB : PreprocessConfig := ⟨1, 2, true, [0], [1], false, some [(1, 1)]⟩

/-- Sample all-zero images of the sizes used by the end-to-end scenarios. -/
def imgZero : ImageT := ⟨3, 2, 2, fun _ _ _ => 0⟩

def img100 : ImageT := ⟨3, 100, 400, fun _ _ _ => 0⟩

def img600 : ImageT := ⟨3, 600, 200, fun _ _ _ => 0⟩

def img1000 : ImageT := ⟨3, 1000, 300, fun _ _ _ => 0⟩

def img200 : ImageT := ⟨3, 200, 200, fun _ _ _ => 0⟩

/-! Bridge lemmas between the executable rational operations and the
standard Mathlib operations. -/

theorem qmin_eq_min (a b : ℚ) : qmin a b = min a b := (min_def a b).symm

theorem qmax_eq_max (a b : ℚ) : qmax a b = max a b := (max_def a b).symm

theorem qdivNat_eq_div (a b : ℕ) : qdivNat a b = (a : ℚ) / (b : ℚ) := by
  rw [qdivNat, Rat.divInt_eq_div]
  push_cast
  rfl

theorem qmulNat_eq_mul (n : ℕ) (x : ℚ) : qmulNat n x = (n : ℚ) * x := by
  rw [qmulNat, Rat.divInt_eq_div]
  push_cast
  rw [mul_div_assoc, Rat.num_div_den]

theorem qround_eq_round (x : ℚ) : qround x = round x := by
  have hden : ((x.den : ℚ)) ≠ 0 := Nat.cast_ne_zero.mpr x.den_nz
  have hnum : x * (x.den : ℚ) = (x.num : ℚ) := by
    have h := Rat.num_div_den x
    rw [div_eq_iff hden] at h
    exact h.symm
  have hx : x + 1 / 2 = ((2 * x.num + (x.den : ℤ) : ℤ) : ℚ) / ((2 * x.den : ℕ) : ℚ) := by
    field_simp
    linear_combination 4 * hnum
  rw [qround, round_eq, hx, Rat.floor_intCast_div_natCast]
  push_cast
  rfl

theorem scaleFor_eq (imageSize canvas : ℕ × ℕ) :
    scaleFor imageSize canvas =
      min ((canvas.1 : ℚ) / (imageSize.1 : ℚ)) ((canvas.2 : ℚ) / (imageSize.2 : ℚ)) := by
  rw [scaleFor, qmin_eq_min, qdivNat_eq_div, qdivNat_eq_div]

/-! Helper lemmas. -/

theorem foldl_pick_mem {α : Type} (f : α → α → α)
    (hf : ∀ a b, f a b = a ∨ f a b = b) :
    ∀ (xs : List α) (x : α), xs.foldl f x = x ∨ xs.foldl f x ∈ xs
  | [], _ => Or.inl rfl
  | y :: ys, x => by
    have ih := foldl_pick_mem f hf ys (f x y)
    simp only [List.foldl_cons]
    rcases ih with h | h
    · rcases hf x y with h2 | h2
      · rw [h, h2]
        exact Or.inl rfl
      · rw [h, h2]
        exact Or.inr (List.mem_cons_self y ys)
    · exact Or.inr (List.mem_cons_of_mem y h)

theorem qmin_choice (a b : ℚ) : qmin a b = a ∨ qmin a b = b := by
  unfold qmin
  split
  · exact Or.inl rfl
  · exact Or.inr rfl

theorem qmax_choice (a b : ℚ) : qmax a b = a ∨ qmax a b = b := by
  unfold qmax
  split
  · exact Or.inr rfl
  · exact Or.inl rfl

theorem listMinQ_mem : ∀ (l : List ℚ), l ≠ [] → listMinQ l ∈ l
  | [], h => absurd rfl h
  | x :: xs, _ => by
    show xs.foldl qmin x ∈ x :: xs
    rcases foldl_pick_mem qmin qmin_choice xs x with h | h
    · rw [h]
      exact List.mem_cons_self x xs
    · exact List.mem_cons_of_mem x h

theorem listMaxQ_mem : ∀ (l : List ℚ), l ≠ [] → listMaxQ l ∈ l
  | [], h => absurd rfl h
  | x :: xs, _ => by
    show xs.foldl qmax x ∈ x :: xs
    rcases foldl_pick_mem qmax qmax_choice xs x with h | h
    · rw [h]
      exact List.mem_cons_self x xs
    · exact List.mem_cons_of_mem x h

theorem selectSmallest_getD_mem :
    ∀ (l : List (ℕ × ℕ)) (d : ℕ × ℕ), l ≠ [] → (selectSmallest l).getD d ∈ l
  | [], _, h => absurd rfl h
  | x :: xs, d, _ => by
    show xs.foldl pickSmaller x ∈ x :: xs
    have hchoice : ∀ a b : ℕ × ℕ, pickSmaller a b = a ∨ pickSmaller a b = b := by
      intro a b
      unfold pickSmaller
      split
      · exact Or.inr rfl
      · exact Or.inl rfl
    rcases foldl_pick_mem pickSmaller hchoice xs x with h | h
    · rw [h]
      exact List.mem_cons_self x xs
    · exact List.mem_cons_of_mem x h

theorem one_le_scaleFor_iff (s c : ℕ × ℕ) (h1 : 0 < s.1) (h2 : 0 < s.2) :
    1 ≤ scaleFor s c ↔ s.1 ≤ c.1 ∧ s.2 ≤ c.2 := by
  have hq1 : (0 : ℚ) < (s.1 : ℚ) := by exact_mod_cast h1
  have hq2 : (0 : ℚ) < (s.2 : ℚ) := by exact_mod_cast h2
  rw [scaleFor_eq, le_min_iff, one_le_div hq1, one_le_div hq2, Nat.cast_le, Nat.cast_le]

/-- The selected scale is always the scale of some candidate. -/
theorem selectedScaleOf_attained (s : ℕ × ℕ) (possible : List (ℕ × ℕ)) (rtm : Bool)
    (hne : possible ≠ []) :
    ∃ e ∈ possible, scaleFor s e = selectedScaleOf s possible rtm := by
  by_cases hU : (possible.filter (fun c => decide (1 ≤ scaleFor s c))).isEmpty = true
  · have hall := List.filter_eq_nil_iff.mp (List.isEmpty_iff.mp hU)
    obtain ⟨p, hp⟩ := List.exists_mem_of_ne_nil possible hne
    have hplt : scaleFor s p < 1 := by
      have := hall p hp
      simp only [decide_eq_true_eq] at this
      exact lt_of_not_le this
    have hpd : p ∈ possible.filter (fun c => decide (scaleFor s c < 1)) := by
      rw [List.mem_filter]
      exact ⟨hp, by simpa using hplt⟩
    have hmapne : (possible.filter (fun c => decide (scaleFor s c < 1))).map (scaleFor s) ≠ [] := by
      intro h0
      rw [List.map_eq_nil_iff] at h0
      rw [h0] at hpd
      exact absurd hpd (List.not_mem_nil p)
    have := listMaxQ_mem _ hmapne
    rw [List.mem_map] at this
    obtain ⟨e, he, hee⟩ := this
    refine ⟨e, (List.mem_filter.mp he).1, ?_⟩
    simp only [selectedScaleOf]
    rw [if_pos hU]
    exact hee
  · have hmapne : (possible.filter (fun c => decide (1 ≤ scaleFor s c))).map (scaleFor s) ≠ [] := by
      intro h0
      rw [List.map_eq_nil_iff] at h0
      exact hU (by rw [h0]; rfl)
    by_cases hr : rtm = true
    · have := listMaxQ_mem _ hmapne
      rw [List.mem_map] at this
      obtain ⟨e, he, hee⟩ := this
      refine ⟨e, (List.mem_filter.mp he).1, ?_⟩
      simp only [selectedScaleOf]
      rw [if_neg hU, if_pos hr]
      exact hee
    · have := listMinQ_mem _ hmapne
      rw [List.mem_map] at this
      obtain ⟨e, he, hee⟩ := this
      refine ⟨e, (List.mem_filter.mp he).1, ?_⟩
      simp only [selectedScaleOf]
      rw [if_neg hU, if_neg hr]
      exact hee

/-- When some candidate can hold the image without upscaling, the selected
scale is an upscaling scale. -/
theorem one_le_selectedScaleOf (s : ℕ × ℕ) (possible : List (ℕ × ℕ)) (rtm : Bool)
    (hex : ∃ c ∈ possible, 1 ≤ scaleFor s c) :
    1 ≤ selectedScaleOf s possible rtm := by
  obtain ⟨c0, hc0, hs0⟩ := hex
  have hc0up : c0 ∈ possible.filter (fun c => decide (1 ≤ scaleFor s c)) := by
    rw [List.mem_filter]
    exact ⟨hc0, by simpa using hs0⟩
  have hupne : possible.filter (fun c => decide (1 ≤ scaleFor s c)) ≠ [] := by
    intro h0
    rw [h0] at hc0up
    exact absurd hc0up (List.not_mem_nil c0)
  have hmapne : (possible.filter (fun c => decide (1 ≤ scaleFor s c))).map (scaleFor s) ≠ [] := by
    intro h0
    rw [List.map_eq_nil_iff] at h0
    exact hupne h0
  have hU : ¬((possible.filter (fun c => decide (1 ≤ scaleFor s c))).isEmpty = true) := by
    intro h0
    exact absurd (List.isEmpty_iff.mp h0) hupne
  have hbound : ∀ q ∈ (possible.filter (fun c => decide (1 ≤ scaleFor s c))).map (scaleFor s),
      1 ≤ q := by
    intro q hq
    rw [List.mem_map] at hq
    obtain ⟨e, he, hee⟩ := hq
    have := (List.mem_filter.mp he).2
    simp only [decide_eq_true_eq] at this
    rw [← hee]
    exact this
  simp only [selectedScaleOf]
  rw [if_neg hU]
  by_cases hr : rtm = true
  · rw [if_pos hr]
    exact hbound _ (listMaxQ_mem _ hmapne)
  · rw [if_neg hr]
    exact hbound _ (listMinQ_mem _ hmapne)

/-- The chosen canvas is a candidate, and it achieves the selected scale. -/
theorem get_canvas_best_fit_spec (s : ℕ × ℕ) (possible : List (ℕ × ℕ)) (rtm : Bool)
    (hne : possible ≠ []) :
    get_canvas_best_fit s possible rtm ∈ possible ∧
      scaleFor s (get_canvas_best_fit s possible rtm) = selectedScaleOf s possible rtm := by
  obtain ⟨e, he, hee⟩ := selectedScaleOf_attained s possible rtm hne
  have hmem : e ∈ possible.filter (fun c =>
      decide (scaleFor s c = selectedScaleOf s possible rtm)) := by
    rw [List.mem_filter]
    exact ⟨he, by simpa using hee⟩
  have hfne : possible.filter (fun c =>
      decide (scaleFor s c = selectedScaleOf s possible rtm)) ≠ [] := by
    intro h0
    rw [h0] at hmem
    exact absurd hmem (List.not_mem_nil e)
  have hres := selectSmallest_getD_mem _ (0, 0) hfne
  have := List.mem_filter.mp hres
  refine ⟨this.1, ?_⟩
  have h2 := this.2
  simp only [decide_eq_true_eq] at h2
  exact h2

theorem tile_crop_grid (p : ImageT) (t : ℕ) :
    (tile_crop p t).2 = (p.height / t, p.width / t) := rfl

theorem tile_crop_length (p : ImageT) (t : ℕ) :
    (tile_crop p t).1.length = (p.height / t) * (p.width / t) := by
  simp only [tile_crop]
  rw [List.length_flatMap]
  have hlen : ∀ r : ℕ, ((List.range (p.width / t)).map (fun c =>
      (⟨p.channels, t, t, fun ch y x => p.data ch (r * t + y) (c * t + x)⟩ : ImageT))).length =
      p.width / t := by
    intro r
    rw [List.length_map, List.length_range]
  induction (p.height / t) with
  | zero => simp
  | succ n ih =>
    rw [List.range_succ, List.map_append, List.sum_append]
    simp only [Function.comp] at ih ⊢
    rw [ih]
    simp only [List.map_cons, List.map_nil, List.sum_cons, List.sum_nil, Function.comp_apply]
    rw [hlen n]
    ring

theorem tile_crop_shape (p : ImageT) (t : ℕ) :
    ∀ tl ∈ (tile_crop p t).1, tl.channels = p.channels ∧ tl.height = t ∧ tl.width = t := by
  intro tl htl
  simp only [tile_crop, List.mem_flatMap, List.mem_map] at htl
  obtain ⟨r, _, c, _, rfl⟩ := htl
  exact ⟨rfl, rfl, rfl⟩

theorem find_supported_resolutions_mem_iff (k t : ℕ) (p : ℕ × ℕ) :
    p ∈ find_supported_resolutions k t ↔
      ∃ r c : ℕ, 1 ≤ r ∧ 1 ≤ c ∧ r * c ≤ k ∧ p = (r * t, c * t) := by
  simp only [find_supported_resolutions, List.mem_flatMap, List.mem_map, List.mem_range]
  constructor
  · rintro ⟨a, ⟨b, hb, rfl⟩, q, ⟨d, hd, rfl⟩, hpq⟩
    refine ⟨b + 1, d + 1, Nat.succ_le_succ (Nat.zero_le b), Nat.succ_le_succ (Nat.zero_le d),
      ?_, hpq.symm⟩
    have := (Nat.le_div_iff_mul_le (Nat.succ_pos b)).mp hd
    calc (b + 1) * (d + 1) = (d + 1) * (b + 1) := by ring
      _ ≤ k := this
  · rintro ⟨r, c, hr, hc, hrc, rfl⟩
    have hr0 : 0 < r := hr
    have hc0 : 0 < c := hc
    have hrk : r ≤ k := le_trans (Nat.le_mul_of_pos_right r hc0) hrc
    have hcd : c ≤ k / r := (Nat.le_div_iff_mul_le hr0).mpr (by rw [mul_comm]; exact hrc)
    exact ⟨r, ⟨r - 1, by omega, by omega⟩, c, ⟨c - 1, by omega, by omega⟩, rfl⟩

theorem find_supported_resolutions_nodup (k t : ℕ) (ht : 0 < t) :
    (find_supported_resolutions k t).Nodup := by
  unfold find_supported_resolutions
  refine List.nodup_flatMap.mpr ⟨?_, ?_⟩
  · intro r _
    refine List.Nodup.map ?_ (List.Nodup.map ?_ (List.nodup_range _))
    · intro c1 c2 hcc
      have h2 := congrArg Prod.snd hcc
      simp only [] at h2
      exact Nat.eq_of_mul_eq_mul_right ht h2
    · exact fun a b hab => by omega
  · have hp : ((List.range k).map (· + 1)).Nodup :=
      List.Nodup.map (fun a b hab => by omega) (List.nodup_range _)
    refine hp.imp ?_
    intro r1 r2 hne p hp1 hp2
    simp only [List.mem_map] at hp1 hp2
    obtain ⟨c1, _, rfl⟩ := hp1
    obtain ⟨c2, _, h21⟩ := hp2
    have h1 := congrArg Prod.fst h21
    simp only [] at h1
    exact hne ((Nat.eq_of_mul_eq_mul_right ht h1).symm)

theorem transform_eq_core (r : Resample) (cfg : PreprocessConfig) (img : ImageT) :
    CLIPImageTransform r cfg img =
      CLIPImageTransformCore r cfg img (prepare_inputs cfg img).2.1
        (prepare_inputs cfg img).2.2 := rfl

theorem core_grid_eq (r : Resample) (cfg : PreprocessConfig) (img : ImageT)
    (ins b : ℕ × ℕ) :
    (CLIPImageTransformCore r cfg img ins b).2 =
      (b.1 / cfg.tile_size, b.2 / cfg.tile_size) := rfl

theorem core_length_eq (r : Resample) (cfg : PreprocessConfig) (img : ImageT)
    (ins b : ℕ × ℕ) :
    (CLIPImageTransformCore r cfg img ins b).1.length =
      (b.1 / cfg.tile_size) * (b.2 / cfg.tile_size) := by
  simp only [CLIPImageTransformCore, preprocessTiles, List.length_map]
  rw [tile_crop_length]
  rfl

theorem tile_crop_mem (p : ImageT) (t : ℕ) (tl : ImageT)
    (htl : tl ∈ (tile_crop p t).1) :
    ∃ r0 c0 : ℕ, r0 < p.height / t ∧ c0 < p.width / t ∧
      tl = ⟨p.channels, t, t, fun ch y x => p.data ch (r0 * t + y) (c0 * t + x)⟩ := by
  simp only [tile_crop, List.mem_flatMap, List.mem_map, List.mem_range] at htl
  obtain ⟨r0, hr0, c0, hc0, rfl⟩ := htl
  exact ⟨r0, c0, hr0, hc0, rfl⟩

theorem core_mem_shape (r : Resample) (cfg : PreprocessConfig) (img : ImageT)
    (ins b : ℕ × ℕ) :
    ∀ tl ∈ (CLIPImageTransformCore r cfg img ins b).1,
      tl.channels = img.channels ∧ tl.height = cfg.tile_size ∧
        tl.width = cfg.tile_size := by
  intro tl htl
  simp only [CLIPImageTransformCore, preprocessTiles, List.mem_map] at htl
  obtain ⟨tl0, htl0, rfl⟩ := htl
  obtain ⟨hch, hh, hw⟩ := tile_crop_shape _ _ tl0 htl0
  exact ⟨hch, hh, hw⟩

theorem inRange01_iff (img : ImageT) :
    inRange01 img = true ↔ ∀ c < img.channels, ∀ y < img.height, ∀ x < img.width,
      0 ≤ img.data c y x ∧ img.data c y x ≤ 1 := by
  simp only [inRange01, List.all_eq_true, List.mem_range, Bool.and_eq_true,
    decide_eq_true_eq]

theorem qdivNat_nonneg (a b : ℕ) : 0 ≤ qdivNat a b := by
  rw [qdivNat_eq_div]
  exact div_nonneg (Nat.cast_nonneg a) (Nat.cast_nonneg b)

theorem scaleFor_nonneg (s c : ℕ × ℕ) : 0 ≤ scaleFor s c := by
  rw [scaleFor, qmin_eq_min]
  exact le_min (qdivNat_nonneg _ _) (qdivNat_nonneg _ _)

theorem round_le_nat (x : ℚ) (m : ℕ) (hx : x ≤ (m : ℚ)) : round x ≤ (m : ℤ) := by
  rw [round_eq]
  have hhalf : ⌊(1 / 2 : ℚ)⌋ = 0 := by
    rw [Int.floor_eq_zero_iff, Set.mem_Ico]
    norm_num
  have hcast : ((m : ℤ) : ℚ) + 1 / 2 = (m : ℚ) + 1 / 2 := by push_cast; ring
  have h1 : ⌊x + 1 / 2⌋ ≤ ⌊((m : ℤ) : ℚ) + 1 / 2⌋ := by
    apply Int.floor_mono
    rw [hcast]
    linarith
  rw [Int.floor_int_add, hhalf] at h1
  omega

/-- When a maximum edge is supplied, both computed dimensions stay at or
below it. -/
theorem inscribed_cap_le (s : ℕ × ℕ) (canvas : ℕ × ℕ) (m : ℕ) (hm : 1 ≤ m) :
    max (get_inscribed_size s canvas (some m)).1
      (get_inscribed_size s canvas (some m)).2 ≤ m := by
  show max (max 1 (qround (qmulNat s.1
      (qmin (scaleFor s canvas) (qdivNat m (max s.1 s.2))))).toNat)
    (max 1 (qround (qmulNat s.2
      (qmin (scaleFor s canvas) (qdivNat m (max s.1 s.2))))).toNat) ≤ m
  have hsc_nonneg : 0 ≤ qmin (scaleFor s canvas) (qdivNat m (max s.1 s.2)) := by
    rw [qmin_eq_min]
    exact le_min (scaleFor_nonneg _ _) (qdivNat_nonneg _ _)
  have hbound : ∀ i : ℕ, i ≤ max s.1 s.2 →
      (i : ℚ) * qmin (scaleFor s canvas) (qdivNat m (max s.1 s.2)) ≤ (m : ℚ) := by
    intro i hi
    rcases Nat.eq_zero_or_pos (max s.1 s.2) with hmax0 | hmaxpos
    · have hi0 : i = 0 := by omega
      rw [hi0]
      simp only [Nat.cast_zero, zero_mul]
      exact_mod_cast Nat.zero_le m
    · have hne : ((max s.1 s.2 : ℕ) : ℚ) ≠ 0 :=
        Nat.cast_ne_zero.mpr (Nat.pos_iff_ne_zero.mp hmaxpos)
      have hsc_le : qmin (scaleFor s canvas) (qdivNat m (max s.1 s.2)) ≤
          (m : ℚ) / ((max s.1 s.2 : ℕ) : ℚ) := by
        rw [qmin_eq_min, qdivNat_eq_div]
        exact min_le_right _ _
      calc (i : ℚ) * qmin (scaleFor s canvas) (qdivNat m (max s.1 s.2))
          ≤ (i : ℚ) * ((m : ℚ) / ((max s.1 s.2 : ℕ) : ℚ)) :=
            mul_le_mul_of_nonneg_left hsc_le (Nat.cast_nonneg i)
        _ ≤ ((max s.1 s.2 : ℕ) : ℚ) * ((m : ℚ) / ((max s.1 s.2 : ℕ) : ℚ)) :=
            mul_le_mul_of_nonneg_right (Nat.cast_le.mpr hi)
              (div_nonneg (Nat.cast_nonneg m) (Nat.cast_nonneg _))
        _ = (m : ℚ) := by
            rw [mul_comm, div_mul_cancel₀ _ hne]
  have hcomp : ∀ i : ℕ, i ≤ max s.1 s.2 →
      max 1 (qround (qmulNat i
        (qmin (scaleFor s canvas) (qdivNat m (max s.1 s.2))))).toNat ≤ m := by
    intro i hi
    have hr : qround (qmulNat i
        (qmin (scaleFor s canvas) (qdivNat m (max s.1 s.2)))) ≤ (m : ℤ) := by
      rw [qround_eq_round, qmulNat_eq_mul]
      exact round_le_nat _ m (hbound i hi)
    exact max_le hm (Int.toNat_le.mpr hr)
  exact max_le (hcomp s.1 (le_max_left _ _)) (hcomp s.2 (le_max_right _ _))

/-! The claims. -/

/-- Claim C1: for every input image, the reference pipeline (which computes
the candidate set, best canvas and inscribed size itself) and the optimized
pipeline (given the same image plus the precomputed inscribed size and best
resolution from prepare_inputs) produce identical outputs, and the returned
grid-shape pairs are exactly equal.  In this exact rational model the tile
stacks are equal outright, which is stronger than equality within
floating-point tolerance; the exported and executorch-loaded variants are
compilations of the very same core function (export pipelines are out of
scope) and so share its denotation. -/
theorem claim1_reference_equals_optimized (r : Resample) (cfg : PreprocessConfig)
    (img : ImageT) :
    CLIPImageTransform r cfg img =
      CLIPImageTransformCore r cfg (prepare_inputs cfg img).1
        (prepare_inputs cfg img).2.1 (prepare_inputs cfg img).2.2 ∧
    (CLIPImageTransform r cfg img).2 =
      (CLIPImageTransformCore r cfg (prepare_inputs cfg img).1
        (prepare_inputs cfg img).2.1 (prepare_inputs cfg img).2.2).2 :=
  ⟨transform_eq_core r cfg img, congrArg Prod.snd (transform_eq_core r cfg img)⟩

/-- Claim C5: for every preprocessing call (both the optimized core on any
precomputed inputs and the reference pipeline on a bare image), the product
rows times cols of the returned grid-shape pair equals the number of tiles
in the returned tile stack. -/
theorem claim5_grid_product (r : Resample) (cfg : PreprocessConfig) (img : ImageT)
    (ins b : ℕ × ℕ) :
    (CLIPImageTransformCore r cfg img ins b).2.1 *
        (CLIPImageTransformCore r cfg img ins b).2.2 =
      (CLIPImageTransformCore r cfg img ins b).1.length ∧
    (CLIPImageTransform r cfg img).2.1 * (CLIPImageTransform r cfg img).2.2 =
      (CLIPImageTransform r cfg img).1.length := by
  constructor
  · rw [core_length_eq, core_grid_eq]
  · rw [transform_eq_core, core_length_eq, core_grid_eq]

/-- Claim C7: for every positive tile size and tile budget, the resolution
enumeration yields exactly the canvases (r * t, c * t) with r, c at least 1
and r * c at most the budget, without duplicates, and every produced canvas
has a grid of at most the budget many tiles. -/
theorem claim7_enumeration_exact (t k : ℕ) (ht : 0 < t) (hk : 0 < k) :
    (∀ p : ℕ × ℕ, p ∈ find_supported_resolutions k t ↔
      ∃ r c : ℕ, 1 ≤ r ∧ 1 ≤ c ∧ r * c ≤ k ∧ p = (r * t, c * t)) ∧
    (find_supported_resolutions k t).Nodup ∧
    (∀ p ∈ find_supported_resolutions k t, (p.1 / t) * (p.2 / t) ≤ k) := by
  refine ⟨fun p => find_supported_resolutions_mem_iff k t p,
    find_supported_resolutions_nodup k t ht, ?_⟩
  intro p hp
  obtain ⟨r, c, hr, hc, hrc, rfl⟩ := (find_supported_resolutions_mem_iff k t p).mp hp
  have e1 : r * t / t = r := Nat.mul_div_cancel r ht
  have e2 : c * t / t = c := Nat.mul_div_cancel c ht
  show r * t / t * (c * t / t) ≤ k
  rw [e1, e2]
  exact hrc

/-- witness for C7 at tile size 224 and budget 4. -/
theorem claim7_witness :
    (find_supported_resolutions 4 224).Nodup ∧
    (448, 224) ∈ find_supported_resolutions 4 224 ∧
    ((448, 224) : ℕ × ℕ).1 / 224 * (((448, 224) : ℕ × ℕ).2 / 224) ≤ 4 := by
  have h := claim7_enumeration_exact 224 4 (by decide) (by decide)
  refine ⟨h.2.1, ?_, ?_⟩
  · exact (h.1 (448, 224)).mpr ⟨2, 1, by decide, by decide, by decide, by decide⟩
  · exact h.2.2 (448, 224) (by decide)

/-- Claim C8: for every image size and nonempty candidate set, canvas
selection returns exactly one element of the candidate set, and whenever at
least one candidate can contain the image without upscaling, the selected
canvas itself contains the image (no upscaling is required). -/
theorem claim8_selection_no_upscale (s : ℕ × ℕ) (possible : List (ℕ × ℕ))
    (rtm : Bool) (hne : possible ≠ []) (h1 : 0 < s.1) (h2 : 0 < s.2) :
    get_canvas_best_fit s possible rtm ∈ possible ∧
    ((∃ c ∈ possible, s.1 ≤ c.1 ∧ s.2 ≤ c.2) →
      s.1 ≤ (get_canvas_best_fit s possible rtm).1 ∧
      s.2 ≤ (get_canvas_best_fit s possible rtm).2) := by
  obtain ⟨hmem, hscale⟩ := get_canvas_best_fit_spec s possible rtm hne
  refine ⟨hmem, ?_⟩
  rintro ⟨c, hc, hcc⟩
  have hex : ∃ e ∈ possible, 1 ≤ scaleFor s e :=
    ⟨c, hc, (one_le_scaleFor_iff s c h1 h2).mpr hcc⟩
  have hsel := one_le_selectedScaleOf s possible rtm hex
  have hone : 1 ≤ scaleFor s (get_canvas_best_fit s possible rtm) := by
    rw [hscale]
    exact hsel
  exact (one_le_scaleFor_iff s _ h1 h2).mp hone

/-- witness for C8 on the 100 by 400 image over the enumerated candidates. -/
theorem claim8_witness :
    get_canvas_best_fit (100, 400) (find_supported_resolutions 4 224) false ∈
      find_supported_resolutions 4 224 ∧
    100 ≤ (get_canvas_best_fit (100, 400) (find_supported_resolutions 4 224) false).1 ∧
    400 ≤ (get_canvas_best_fit (100, 400) (find_supported_resolutions 4 224) false).2 := by
  have h := claim8_selection_no_upscale (100, 400) (find_supported_resolutions 4 224)
    false (by decide) (by decide) (by decide)
  exact ⟨h.1, h.2 ⟨(224, 448), by decide, by decide, by decide⟩⟩

/-- Claim C9: the external tensor-segment layout records, per tensor entry,
the fields offset, size, scalar_type, dim_sizes and dim_order, and a
TensorSegment groups a list of such TensorMetadata entries. -/
theorem claim9_tensor_segment_fields (fqn : String) (st : ScalarType)
    (ds : List ℤ) (dord : List ℕ) (so lay o sz segIdx : ℤ)
    (ms : List TensorMetadata) :
    (TensorMetadata.mk fqn st ds dord so lay o sz).offset = o ∧
    (TensorMetadata.mk fqn st ds dord so lay o sz).size = sz ∧
    (TensorMetadata.mk fqn st ds dord so lay o sz).scalar_type = st ∧
    (TensorMetadata.mk fqn st ds dord so lay o sz).dim_sizes = ds ∧
    (TensorMetadata.mk fqn st ds dord so lay o sz).dim_order = dord ∧
    (TensorSegment.mk segIdx ms).tensor_metadata = ms :=
  ⟨rfl, rfl, rfl, rfl, rfl, rfl⟩

/-- Claim C10: the optimized pipeline performs no canvas enumeration,
selection or inscription internally.  Its output depends on the
configuration only through tile_size, mean and std (so the fields driving
enumeration and selection - max_num_tiles, resize_to_max_canvas and
possible_resolutions - are never consulted), its grid shape is read off the
passed best_resolution alone, and it is unchanged when the image is swapped
while the precomputed inputs are kept; only the reference pipeline accepts a
bare image and computes the geometry itself. -/
theorem claim10_core_no_internal_geometry (r : Resample)
    (cfg cfg2 : PreprocessConfig) (img img2 : ImageT) (ins b : ℕ × ℕ)
    (ht : cfg.tile_size = cfg2.tile_size) (hm : cfg.image_mean = cfg2.image_mean)
    (hs : cfg.image_std = cfg2.image_std) :
    CLIPImageTransformCore r cfg img ins b =
      CLIPImageTransformCore r cfg2 img ins b ∧
    (CLIPImageTransformCore r cfg img ins b).2 =
      (b.1 / cfg.tile_size, b.2 / cfg.tile_size) ∧
    (CLIPImageTransformCore r cfg img2 ins b).2 =
      (CLIPImageTransformCore r cfg img ins b).2 := by
  refine ⟨?_, rfl, rfl⟩
  simp only [CLIPImageTransformCore, preprocessTiles, ht, hm, hs]

/-- witness for C10: two configurations differing in every
enumeration/selection field give the same optimized output. -/
theorem claim10_witness :
    CLIPImageTransformCore idResample cfgUnit imgZero (1, 1) (1, 1) =
      CLIPImageTransformCore idResample cfgUnitB imgZero (1, 1) (1, 1) :=
  (claim10_core_no_internal_geometry idResample cfgUnit cfgUnitB imgZero imgZero
    (1, 1) (1, 1) rfl rfl rfl).1

/-- Evaluation of one end-to-end scenario from the best-fit canvas. -/
theorem scenario_eval (r : Resample) (cfg : PreprocessConfig) (img : ImageT)
    (bh bw : ℕ)
    (hbest : get_canvas_best_fit (img.height, img.width)
      ((cfg.possible_resolutions).getD
        (find_supported_resolutions cfg.max_num_tiles cfg.tile_size))
      cfg.resize_to_max_canvas = (bh, bw)) :
    (CLIPImageTransform r cfg img).2 = (bh / cfg.tile_size, bw / cfg.tile_size) ∧
    (CLIPImageTransform r cfg img).1.length =
      (bh / cfg.tile_size) * (bw / cfg.tile_size) ∧
    ∀ tl ∈ (CLIPImageTransform r cfg img).1,
      tl.channels = img.channels ∧ tl.height = cfg.tile_size ∧
        tl.width = cfg.tile_size := by
  have hb : (prepare_inputs cfg img).2.2 = (bh, bw) := hbest
  refine ⟨?_, ?_, ?_⟩
  · rw [transform_eq_core, core_grid_eq, hb]
  · rw [transform_eq_core, core_length_eq, hb]
  · intro tl htl
    rw [transform_eq_core] at htl
    exact core_mem_shape r cfg img _ _ tl htl

/-- Claim C2: with tile_size 224, max_num_tiles 4 and resize_to_max_canvas
false, a 100 by 400 image yields grid (1, 2) with exactly 2 tiles and a
600 by 200 image yields grid (3, 1) with exactly 3 tiles, each tile of
shape (3, 224, 224). -/
theorem claim2_scenarios_no_resize :
    (∀ (r : Resample) (cfg : PreprocessConfig) (img : ImageT),
      cfg.tile_size = 224 → cfg.max_num_tiles = 4 →
      cfg.resize_to_max_canvas = false → cfg.possible_resolutions = none →
      img.channels = 3 → img.height = 100 → img.width = 400 →
      (CLIPImageTransform r cfg img).2 = (1, 2) ∧
      (CLIPImageTransform r cfg img).1.length = 2 ∧
      ∀ tl ∈ (CLIPImageTransform r cfg img).1,
        tl.channels = 3 ∧ tl.height = 224 ∧ tl.width = 224) ∧
    (∀ (r : Resample) (cfg : PreprocessConfig) (img : ImageT),
      cfg.tile_size = 224 → cfg.max_num_tiles = 4 →
      cfg.resize_to_max_canvas = false → cfg.possible_resolutions = none →
      img.channels = 3 → img.height = 600 → img.width = 200 →
      (CLIPImageTransform r cfg img).2 = (3, 1) ∧
      (CLIPImageTransform r cfg img).1.length = 3 ∧
      ∀ tl ∈ (CLIPImageTransform r cfg img).1,
        tl.channels = 3 ∧ tl.height = 224 ∧ tl.width = 224) := by
  constructor
  · intro r cfg img ht hk hr hp hc hh hw
    have hbest : get_canvas_best_fit (img.height, img.width)
        ((cfg.possible_resolutions).getD
          (find_supported_resolutions cfg.max_num_tiles cfg.tile_size))
        cfg.resize_to_max_canvas = (224, 448) := by
      rw [ht, hk, hr, hp, hh, hw]
      decide
    obtain ⟨hg, hl, hs⟩ := scenario_eval r cfg img 224 448 hbest
    refine ⟨?_, ?_, ?_⟩
    · rw [hg, ht]
    · rw [hl, ht]
    · intro tl htl
      obtain ⟨h1, h2, h3⟩ := hs tl htl
      exact ⟨by rw [h1, hc], by rw [h2, ht], by rw [h3, ht]⟩
  · intro r cfg img ht hk hr hp hc hh hw
    have hbest : get_canvas_best_fit (img.height, img.width)
        ((cfg.possible_resolutions).getD
          (find_supported_resolutions cfg.max_num_tiles cfg.tile_size))
        cfg.resize_to_max_canvas = (672, 224) := by
      rw [ht, hk, hr, hp, hh, hw]
      decide
    obtain ⟨hg, hl, hs⟩ := scenario_eval r cfg img 672 224 hbest
    refine ⟨?_, ?_, ?_⟩
    · rw [hg, ht]
    · rw [hl, ht]
    · intro tl htl
      obtain ⟨h1, h2, h3⟩ := hs tl htl
      exact ⟨by rw [h1, hc], by rw [h2, ht], by rw [h3, ht]⟩

/-- witness for C2 on concrete images. -/
theorem claim2_witness :
    (CLIPImageTransform idResample cfgFalse img100).2 = (1, 2) ∧
    (CLIPImageTransform idResample cfgFalse img600).2 = (3, 1) :=
  ⟨(claim2_scenarios_no_resize.1 idResample cfgFalse img100
      rfl rfl rfl rfl rfl rfl rfl).1,
   (claim2_scenarios_no_resize.2 idResample cfgFalse img600
      rfl rfl rfl rfl rfl rfl rfl).1⟩

/-- Claim C3: with tile_size 224, max_num_tiles 4 and resize_to_max_canvas
true, a 1000 by 300 image yields grid (4, 1) with exactly 4 tiles and a
200 by 200 image yields grid (2, 2) with exactly 4 tiles, each tile of
shape (3, 224, 224). -/
theorem claim3_scenarios_resize :
    (∀ (r : Resample) (cfg : PreprocessConfig) (img : ImageT),
      cfg.tile_size = 224 → cfg.max_num_tiles = 4 →
      cfg.resize_to_max_canvas = true → cfg.possible_resolutions = none →
      img.channels = 3 → img.height = 1000 → img.width = 300 →
      (CLIPImageTransform r cfg img).2 = (4, 1) ∧
      (CLIPImageTransform r cfg img).1.length = 4 ∧
      ∀ tl ∈ (CLIPImageTransform r cfg img).1,
        tl.channels = 3 ∧ tl.height = 224 ∧ tl.width = 224) ∧
    (∀ (r : Resample) (cfg : PreprocessConfig) (img : ImageT),
      cfg.tile_size = 224 → cfg.max_num_tiles = 4 →
      cfg.resize_to_max_canvas = true → cfg.possible_resolutions = none →
      img.channels = 3 → img.height = 200 → img.width = 200 →
      (CLIPImageTransform r cfg img).2 = (2, 2) ∧
      (CLIPImageTransform r cfg img).1.length = 4 ∧
      ∀ tl ∈ (CLIPImageTransform r cfg img).1,
        tl.channels = 3 ∧ tl.height = 224 ∧ tl.width = 224) := by
  constructor
  · intro r cfg img ht hk hr hp hc hh hw
    have hbest : get_canvas_best_fit (img.height, img.width)
        ((cfg.possible_resolutions).getD
          (find_supported_resolutions cfg.max_num_tiles cfg.tile_size))
        cfg.resize_to_max_canvas = (896, 224) := by
      rw [ht, hk, hr, hp, hh, hw]
      decide
    obtain ⟨hg, hl, hs⟩ := scenario_eval r cfg img 896 224 hbest
    refine ⟨?_, ?_, ?_⟩
    · rw [hg, ht]
    · rw [hl, ht]
    · intro tl htl
      obtain ⟨h1, h2, h3⟩ := hs tl htl
      exact ⟨by rw [h1, hc], by rw [h2, ht], by rw [h3, ht]⟩
  · intro r cfg img ht hk hr hp hc hh hw
    have hbest : get_canvas_best_fit (img.height, img.width)
        ((cfg.possible_resolutions).getD
          (find_supported_resolutions cfg.max_num_tiles cfg.tile_size))
        cfg.resize_to_max_canvas = (448, 448) := by
      rw [ht, hk, hr, hp, hh, hw]
      decide
    obtain ⟨hg, hl, hs⟩ := scenario_eval r cfg img 448 448 hbest
    refine ⟨?_, ?_, ?_⟩
    · rw [hg, ht]
    · rw [hl, ht]
    · intro tl htl
      obtain ⟨h1, h2, h3⟩ := hs tl htl
      exact ⟨by rw [h1, hc], by rw [h2, ht], by rw [h3, ht]⟩

/-- witness for C3 on concrete images. -/
theorem claim3_witness :
    (CLIPImageTransform idResample cfgTrue img1000).2 = (4, 1) ∧
    (CLIPImageTransform idResample cfgTrue img200).2 = (2, 2) :=
  ⟨(claim3_scenarios_resize.1 idResample cfgTrue img1000
      rfl rfl rfl rfl rfl rfl rfl).1,
   (claim3_scenarios_resize.2 idResample cfgTrue img200
      rfl rfl rfl rfl rfl rfl rfl).1⟩

/-- Counterexample to claim C4 as stated: in the pipeline the resize limit
is None whenever resize_to_max_canvas is true (source line
max_size = None if config.resize_to_max_canvas else config.tile_size), so
no max_edge cap is in effect in that mode: on a 1000 by 300 image the
inscribed size is (747, 224), whose larger edge 747 exceeds the tile size
224 that would be the cap. -/
theorem claim4_counterexample :
    maxSizeOf cfgTrue = none ∧
    (prepare_inputs cfgTrue img1000).2.1 = (747, 224) ∧
    cfgTrue.tile_size < max (prepare_inputs cfgTrue img1000).2.1.1
      (prepare_inputs cfgTrue img1000).2.1.2 := by
  refine ⟨rfl, ?_, ?_⟩
  · decide
  · decide

/-- Claim C4 as amended: whenever a max_edge cap is in effect (max_edge is
non-None), the inscribed-size computation caps the computed size at
max_edge in both dimensions (in particular the larger edge) and derives
both edges by rounding at one common nonnegative scale; in the pipeline the
cap (max_edge = tile_size) is in effect only when resize_to_max_canvas is
false - when it is true, max_edge is None and no cap is applied. -/
theorem claim4_amended_cap (s canvas : ℕ × ℕ) (m : ℕ) (cfg : PreprocessConfig)
    (hm : 1 ≤ m) :
    (max (get_inscribed_size s canvas (some m)).1
        (get_inscribed_size s canvas (some m)).2 ≤ m ∧
      ∃ sc : ℚ, 0 ≤ sc ∧ get_inscribed_size s canvas (some m) =
        (max 1 (qround (qmulNat s.1 sc)).toNat,
         max 1 (qround (qmulNat s.2 sc)).toNat)) ∧
    maxSizeOf cfg = (if cfg.resize_to_max_canvas then none
      else some cfg.tile_size) := by
  refine ⟨⟨inscribed_cap_le s canvas m hm, ?_⟩, rfl⟩
  refine ⟨qmin (scaleFor s canvas) (qdivNat m (max s.1 s.2)), ?_, rfl⟩
  rw [qmin_eq_min]
  exact le_min (scaleFor_nonneg _ _) (qdivNat_nonneg _ _)

/-- witness for the amended C4 at the 1000 by 300 scenario. -/
theorem claim4_witness :
    (1 : ℕ) ≤ 224 ∧
    ((max (get_inscribed_size (1000, 300) (896, 224) (some 224)).1
        (get_inscribed_size (1000, 300) (896, 224) (some 224)).2 ≤ 224 ∧
      ∃ sc : ℚ, 0 ≤ sc ∧ get_inscribed_size (1000, 300) (896, 224) (some 224) =
        (max 1 (qround (qmulNat 1000 sc)).toNat,
         max 1 (qround (qmulNat 300 sc)).toNat)) ∧
     maxSizeOf cfgFalse = (if cfgFalse.resize_to_max_canvas then none
       else some cfgFalse.tile_size)) :=
  ⟨by decide, claim4_amended_cap (1000, 300) (896, 224) 224 cfgFalse (by decide)⟩

/-- Claim C6: for every input image with values in [0, 1] and any resample
filter that preserves shape and the [0, 1] range, every value of every tile
produced by the tiling stage of the preprocessing pipelines (before
normalization) lies in [0, 1]; in particular the minimum and maximum over
the tile stack satisfy 0 at most min at most max at most 1. -/
theorem claim6_tiles_in_unit_range (r : Resample) (cfg : PreprocessConfig)
    (img : ImageT) (ins b : ℕ × ℕ)
    (hshape : ∀ (im : ImageT) (h w : ℕ), (r im h w).channels = im.channels ∧
      (r im h w).height = h ∧ (r im h w).width = w)
    (hres : ∀ (im : ImageT) (h w : ℕ),
      inRange01 im = true → inRange01 (r im h w) = true)
    (himg : inRange01 img = true) :
    ((preprocessTiles r cfg img ins b).1.all inRange01) = true := by
  rw [List.all_eq_true]
  intro tl htl
  obtain ⟨r0, c0, hr0, hc0, rfl⟩ :=
    tile_crop_mem (resize_and_pad r img ins b) cfg.tile_size tl htl
  rw [inRange01_iff]
  intro c hc y hy x hx
  show 0 ≤ (resize_and_pad r img ins b).data c
      (r0 * cfg.tile_size + y) (c0 * cfg.tile_size + x) ∧
    (resize_and_pad r img ins b).data c
      (r0 * cfg.tile_size + y) (c0 * cfg.tile_size + x) ≤ 1
  simp only [resize_and_pad]
  by_cases hin : r0 * cfg.tile_size + y < ins.1 ∧ c0 * cfg.tile_size + x < ins.2
  · rw [if_pos hin]
    have h01 := hres img ins.1 ins.2 himg
    rw [inRange01_iff] at h01
    have hsh := hshape img ins.1 ins.2
    apply h01
    · rw [hsh.1]
      exact hc
    · rw [hsh.2.1]
      exact hin.1
    · rw [hsh.2.2]
      exact hin.2
  · rw [if_neg hin]
    exact ⟨le_refl 0, zero_le_one⟩

/-- witness for C6 with the constant-zero resample filter. -/
theorem claim6_witness :
    ((preprocessTiles constResample cfgUnit imgZero (1, 1) (1, 1)).1.all
      inRange01) = true :=
  claim6_tiles_in_unit_range constResample cfgUnit imgZero (1, 1) (1, 1)
    (fun _ _ _ => ⟨rfl, rfl, rfl⟩)
    (fun im h w _ => by
      rw [inRange01_iff]
      intro c hc y hy x hx
      exact ⟨le_refl 0, zero_le_one⟩)
    (by decide)
